import Mathlib

/-!
Verification of the Signal Extraction & Lead Scoring Pipeline.

Shallow embedding of the pipeline's pure logic (services.py / app.py):
the field extractors (industry, emails, phones, social links, technologies,
team size, funding stage, name, description), the profile assembler
(`scrape_company_data`), the scoring orchestrator
(`analyze_company_profile`) and the insight-invocation condition at the
analysis call site.

External effects are inputs of the embedding: the network fetch is a
`FetchOutcome` value, and the reasoning backend's generated text — after the
fence stripping and JSON parsing that the source performs — is a `GenOutcome`
value.  Machine regexes (`re.search` / `re.findall`) are embedded as
executable backtracking matchers over `List Char` that follow Python's
leftmost-match, greedy/lazy alternative ordering for the concrete patterns
appearing in the source.  Character classes are the ASCII classes of the
source patterns (`\d`, `\s`, `\w`, explicit ranges); Python's `str` regexes
additionally treat some non-ASCII codepoints as word/space characters, which
no claim exercises.
-/

namespace LeadGen

/-- Python `str.lower()` on ASCII text. -/
def pyLower (s : String) : String := ⟨s.toList.map Char.toLower⟩

/-- Python `sub in s` for strings: does `pat` occur as a contiguous
sublist? -/
def isSubstring (pat : List Char) : List Char → Bool
  | [] => pat.isEmpty
  | c :: t => pat.isPrefixOf (c :: t) || isSubstring pat t

/-- ASCII word character, Python regex `\w` / the two sides of `\b`. -/
def isWordCharB (c : Char) : Bool := c.isAlphanum || c = '_'

/-- Python regex `\s` (ASCII part): space, tab, newline, return, vtab, formfeed. -/
def isPySpace (c : Char) : Bool :=
  c = ' ' || c = '\t' || c = '\n' || c = '\r' || c = '\x0b' || c = '\x0c'

/-- Wordness of an optional neighbouring character; the edge of the string
counts as a non-word position. -/
def wordOpt : Option Char → Bool
  | none => false
  | some c => isWordCharB c

/-- Python regex `\b`: holds between two positions exactly when one side is a
word character and the other is not (or is the string edge). -/
def boundaryB (a b : Option Char) : Bool := wordOpt a != wordOpt b

/-- Does `re.search(r'\b' + kw + r'\b', content)` succeed?  `prev` is the
character just before the current position.  The keywords of the source
contain no regex metacharacters (they are `re.escape`d or plain words), so
the pattern between the two `\b` anchors is a literal. -/
def wbSearchAux (kw : List Char) : Option Char → List Char → Bool
  | _, [] => false
  | prev, c :: t =>
    (kw.isPrefixOf (c :: t) && boundaryB prev (some c)
      && boundaryB kw.getLast? ((c :: t).drop kw.length).head?)
    || wbSearchAux kw (some c) t

/-- Whole-word search of a literal keyword in a content string. -/
def wbSearch (kw : String) (content : String) : Bool :=
  wbSearchAux kw.toList none content.toList

/-- The ordered industry taxonomy of `EnhancedWebScraper._extract_industry`
(insertion order of the Python dict). -/
def industry_keywords : List (String × List String) :=
  [ ("Education", ["education", "college", "university", "edtech", "school",
      "academic", "institute", "learning"]),
    ("SaaS", ["software as a service", "saas", "cloud solution"]),
    ("FinTech", ["financial technology", "payments", "banking"]),
    ("Healthcare", ["health tech", "medical", "patient care", "biotech", "hospital"]),
    ("E-commerce", ["online retail", "e-commerce", "marketplace"]),
    ("AI/ML", ["artificial intelligence", "machine learning", "data science"]),
    ("Marketing", ["digital marketing", "seo", "advertising agency"]) ]

/-- The ordered funding taxonomy of `EnhancedWebScraper._estimate_funding_stage`. -/
def funding_stages : List (String × List String) :=
  [ ("Seed/Pre-Seed", ["seed round", "pre-seed", "angel investment"]),
    ("Series A", ["series a"]),
    ("Series B", ["series b"]),
    ("Series C+", ["series c", "series d"]),
    ("Venture Capital", ["venture capital", "backed by vc"]),
    ("Acquired", ["acquired by", "acquisition"]),
    ("Bootstrapped", ["bootstrapped", "self-funded"]) ]

/-- The taxonomy loop shared by `_extract_industry` and
`_estimate_funding_stage`: return the label of the first entry one of whose
keywords has a whole-word match, else "Unknown". -/
def findLabel : List (String × List String) → String → String
  | [], _ => "Unknown"
  | (label, kws) :: rest, content =>
    if kws.any (fun kw => wbSearch kw content) then label
    else findLabel rest content

/-- `EnhancedWebScraper._extract_industry` (case-sensitive matching; the
pipeline hands it the lower-cased page text). -/
def extract_industry (content : String) : String :=
  findLabel industry_keywords content

/-- `EnhancedWebScraper._estimate_funding_stage`.  The source matches with
`re.IGNORECASE` and all-lowercase keywords, embedded here by lower-casing the
content before the whole-word search. -/
def estimate_funding_stage (content : String) : String :=
  findLabel funding_stages (pyLower content)

/-- Specification-side formulation of the classifiers (the claim's words):
label of the first taxonomy entry, in declared order, with any whole-word
keyword match; "Unknown" when none matches. -/
def firstMatchingLabel (tax : List (String × List String)) (content : String) : String :=
  ((tax.find? (fun p => p.2.any (fun kw => wbSearch kw content))).map Prod.fst).getD "Unknown"

/-!
Backtracking regex fragments.  A matcher takes the remaining input and
returns, in Python backtracking priority order, every `(consumed, rest)`
split it can produce; composing them with `cseq`/`calt` reproduces the
engine's exploration order, and the first full-pattern success is the match
Python reports.
-/

/-- Matcher: possible `(consumed characters, remaining input)` splits,
highest backtracking priority first. -/
def CM := List Char → List (List Char × List Char)

/-- Single character of a class. -/
def cchar (p : Char → Bool) : CM := fun l =>
  match l with
  | c :: rest => if p c then [([c], rest)] else []
  | [] => []

/-- Sequencing, preserving priority order. -/
def cseq (a b : CM) : CM := fun l =>
  (a l).flatMap fun pr => (b pr.2).map fun qr => (pr.1 ++ qr.1, qr.2)

/-- Ordered alternation. -/
def calt (a b : CM) : CM := fun l => a l ++ b l

/-- Empty match. -/
def ceps : CM := fun l => [([], l)]

/-- Greedy `?`: try the element, then skipping it. -/
def copt (a : CM) : CM := calt a ceps

/-- Exactly `n` repetitions. -/
def cexact (a : CM) : Nat → CM
  | 0 => ceps
  | n + 1 => cseq a (cexact a n)

/-- Literal string. -/
def cstr (s : List Char) : CM := fun l =>
  if s.isPrefixOf l then [(s, l.drop s.length)] else []

/-- Greedy `+` of a character class: consume the longest class run first,
then give back one character at a time. -/
def cmany1 (p : Char → Bool) : CM := fun l =>
  let n := (l.takeWhile p).length
  (List.range n).map (fun i => (l.take (n - i), l.drop (n - i)))

/-- Greedy `{2,}` of a character class. -/
def cmany2 (p : Char → Bool) : CM := fun l =>
  let n := (l.takeWhile p).length
  if n < 2 then [] else (List.range (n - 1)).map (fun i => (l.take (n - i), l.drop (n - i)))

/-- Greedy `*` of a character class. -/
def cmany0 (p : Char → Bool) : CM := fun l =>
  let n := (l.takeWhile p).length
  (List.range (n + 1)).map (fun i => (l.take (n - i), l.drop (n - i)))

/-- Lazy `+?` of a character class: shortest consumption first. -/
def cmany1Lazy (p : Char → Bool) : CM := fun l =>
  let n := (l.takeWhile p).length
  (List.range n).map (fun i => (l.take (i + 1), l.drop (i + 1)))

/-!
`EnhancedWebScraper._extract_emails`: the pattern
`\b[A-Za-z0-9._%+-]+@[A-Za-z0-9.-]+\.[A-Z|a-z]{2,}\b` (note the literal `|`
inside the final class, as in the source) with `re.findall`, which for a
groupless pattern returns the full non-overlapping matches left to right.
-/

/-- Class `[A-Za-z0-9._%+-]`. -/
def emailLocalChar (c : Char) : Bool :=
  c.isAlphanum || c = '.' || c = '_' || c = '%' || c = '+' || c = '-'

/-- Class `[A-Za-z0-9.-]`. -/
def emailDomChar (c : Char) : Bool := c.isAlphanum || c = '.' || c = '-'

/-- Class `[A-Z|a-z]`. -/
def emailTldChar (c : Char) : Bool := c.isAlpha || c = '|'

/-- The email pattern between its two `\b` anchors. -/
def emailBody : CM :=
  cseq (cmany1 emailLocalChar)
    (cseq (cchar (· = '@'))
      (cseq (cmany1 emailDomChar)
        (cseq (cchar (· = '.')) (cmany2 emailTldChar))))

/-- Attempt an email match at the current position (`prev` = preceding
character): check the leading `\b`, then take the first body alternative
whose trailing `\b` holds. -/
def emailMatchAt (prev : Option Char) (l : List Char) : Option (List Char × List Char) :=
  if boundaryB prev l.head? then
    ((emailBody l).filter (fun pr => boundaryB pr.1.getLast? pr.2.head?)).head?
  else none

/-- `re.findall` scan for the email pattern: leftmost match, then continue
after its end.  Fuel is the input length; every match consumes at least one
character, so the fuel never runs out before the input does. -/
def emailFindAux : Nat → Option Char → List Char → List (List Char)
  | 0, _, _ => []
  | _ + 1, _, [] => []
  | fuel + 1, prev, c :: t =>
    match emailMatchAt prev (c :: t) with
    | some (m, rest) => m :: emailFindAux fuel m.getLast? rest
    | none => emailFindAux fuel (some c) t

/-- Python `list(set(...))` on a list of strings.  The set's iteration order
is not specified by Python; it is embedded as first-occurrence order, which
is indistinguishable for the empty and singleton lists the claims exercise. -/
def pySetList (l : List String) : List String := l.eraseDups

/-- `EnhancedWebScraper._extract_emails`. -/
def extract_emails (content : String) : List String :=
  (pySetList ((emailFindAux content.toList.length none content.toList).map List.asString)).take 5


/-!
`EnhancedWebScraper._extract_phones`: the pattern
`(\+?\d{1,3}[-.\s]?)?\(?\d{2,4}\)?[-.\s]?\d{3,5}[-.\s]?\d{3,5}` with
`re.findall`.  The pattern has exactly one group — the optional country-code
prefix — so `findall` returns that group's capture for each match (the empty
string when the group did not participate), not the full match.
-/

/-- Class `[-.\s]`. -/
def sepCharB (c : Char) : Bool := c = '-' || c = '.' || isPySpace c

/-- `\d{1,3}` greedy: three digits first, down to one. -/
def cdigits13 : CM :=
  calt (cexact (cchar Char.isDigit) 3)
    (calt (cexact (cchar Char.isDigit) 2) (cexact (cchar Char.isDigit) 1))

/-- `\d{2,4}` greedy. -/
def cdigits24 : CM :=
  calt (cexact (cchar Char.isDigit) 4)
    (calt (cexact (cchar Char.isDigit) 3) (cexact (cchar Char.isDigit) 2))

/-- `\d{3,5}` greedy. -/
def cdigits35 : CM :=
  calt (cexact (cchar Char.isDigit) 5)
    (calt (cexact (cchar Char.isDigit) 4) (cexact (cchar Char.isDigit) 3))

/-- The capture group `(\+?\d{1,3}[-.\s]?)?`, alternatives in priority
order; the absent-group alternative (empty capture) comes last. -/
def phoneGroup : CM :=
  copt (cseq (copt (cchar (· = '+')))
    (cseq cdigits13 (copt (cchar sepCharB))))

/-- The mandatory tail `\(?\d{2,4}\)?[-.\s]?\d{3,5}[-.\s]?\d{3,5}`. -/
def phoneTail : CM :=
  cseq (copt (cchar (· = '(')))
    (cseq cdigits24
      (cseq (copt (cchar (· = ')')))
        (cseq (copt (cchar sepCharB))
          (cseq cdigits35
            (cseq (copt (cchar sepCharB)) cdigits35)))))

/-- Attempt a phone match at the current position; on success return the
group-1 capture and the rest of the input after the whole match. -/
def phoneMatchAt (l : List Char) : Option (List Char × List Char) :=
  ((phoneGroup l).flatMap fun pr =>
    (phoneTail pr.2).map fun qr => (pr.1, qr.2)).head?

/-- `re.findall` scan for the phone pattern, collecting group-1 captures. -/
def phoneFindAux : Nat → List Char → List (List Char)
  | 0, _ => []
  | _ + 1, [] => []
  | fuel + 1, c :: t =>
    match phoneMatchAt (c :: t) with
    | some (cap, rest) => cap :: phoneFindAux fuel rest
    | none => phoneFindAux fuel t

/-- Digits of a candidate, `re.sub(r'\D', '', match)`. -/
def digitCountL (l : List Char) : Nat := (l.filter Char.isDigit).length

/-- Python `str.strip()`. -/
def pyStrip (l : List Char) : List Char :=
  ((l.dropWhile isPySpace).reverse.dropWhile isPySpace).reverse

/-- `EnhancedWebScraper._extract_phones`: findall, keep candidates whose
digit-only form has length in [8,15], strip them, dedupe, cap at 3. -/
def extract_phones (content : String) : List String :=
  let raw := phoneFindAux content.toList.length content.toList
  let cleaned := (raw.filter (fun m => decide (8 ≤ digitCountL m) && decide (digitCountL m ≤ 15))).map
    (fun m => (pyStrip m).asString)
  (pySetList cleaned).take 3


/-!
`EnhancedWebScraper._estimate_team_size`: first
`re.search(r'(?:team of|employees|members|we are|we have)\s*([\d,]+(?:\s*to\s*|-)?[\d,]+?)\b', content, re.IGNORECASE)`
returning `group(1).strip()`, then a substring-based tier table, else
"Unknown".  `re.IGNORECASE` is embedded by matching on the lower-cased
content; the captured group consists of `[\d,]`, space, and the lowercase
literal `to`, so the capture is unchanged by the lowering whenever the
original text spells the separator in lowercase (the pipeline always hands
this function already-lowered text).
-/

/-- Class `[\d,]`. -/
def digitComma (c : Char) : Bool := c.isDigit || c = ','

/-- The cue-word alternation, in source order. -/
def teamPhrase : CM :=
  calt (cstr "team of".toList)
    (calt (cstr "employees".toList)
      (calt (cstr "members".toList)
        (calt (cstr "we are".toList) (cstr "we have".toList))))

/-- The optional range separator `(?:\s*to\s*|-)?`, alternatives in order. -/
def teamSep : CM :=
  calt (cseq (cmany0 isPySpace) (cseq (cstr "to".toList) (cmany0 isPySpace)))
    (calt (cstr "-".toList) ceps)

/-- The capture group `([\d,]+(?:\s*to\s*|-)?[\d,]+?)`. -/
def teamGroup : CM :=
  cseq (cmany1 digitComma) (cseq teamSep (cmany1Lazy digitComma))

/-- Attempt a team-size match at the current position; return the group-1
capture of the first alternative whose trailing `\b` holds. -/
def teamMatchAt (l : List Char) : Option (List Char) :=
  (((cseq teamPhrase (cmany0 isPySpace)) l).flatMap (fun pr =>
      ((teamGroup pr.2).filter (fun qr => boundaryB qr.1.getLast? qr.2.head?)).map
        (fun qr => qr.1))).head?

/-- `re.search` scan: first position, left to right, with a match. -/
def teamSearchAux : Nat → List Char → Option (List Char)
  | 0, _ => none
  | _ + 1, [] => none
  | fuel + 1, c :: t =>
    match teamMatchAt (c :: t) with
    | some cap => some cap
    | none => teamSearchAux fuel t

/-- The tier table of `_estimate_team_size`, in insertion order. -/
def size_tiers : List (String × List String) :=
  [ ("1-10", ["1-10", "small team", "startup team"]),
    ("11-50", ["11-50"]),
    ("51-200", ["51-200", "mid-sized"]),
    ("201-500", ["201-500"]),
    ("501+", ["501+", "500+", "large team", "enterprise"]) ]

/-- The tier fallback loop: first tier one of whose terms occurs as a plain
substring (Python `in`, case-sensitive) wins. -/
def tierLoop : List (String × List String) → String → String
  | [], _ => "Unknown"
  | (size, terms) :: rest, content =>
    if terms.any (fun t => isSubstring t.toList content.toList) then size
    else tierLoop rest content

/-- `EnhancedWebScraper._estimate_team_size`. -/
def estimate_team_size (content : String) : String :=
  match teamSearchAux content.toList.length (pyLower content).toList with
  | some cap => (pyStrip cap).asString
  | none => tierLoop size_tiers content


/-!
`EnhancedWebScraper._extract_social_media`: iterate anchors in document
order; for each platform of a fixed list, if the lowercase platform name is
not a key of the accumulating dict and occurs in the lower-cased href, store
the original href under the title-cased platform name.
-/

/-- Python `str.title()`: uppercase every letter that follows a non-letter
(or the start), lowercase the other letters. -/
def pyTitleAux : Bool → List Char → List Char
  | _, [] => []
  | prevAlpha, c :: t =>
    (if c.isAlpha then (if prevAlpha then c.toLower else c.toUpper) else c)
      :: pyTitleAux c.isAlpha t

/-- Python `str.title()`. -/
def pyTitle (s : String) : String := (pyTitleAux false s.toList).asString

/-- Python dict membership test on an insertion-ordered association list. -/
def dictHasKey (d : List (String × String)) (k : String) : Bool :=
  d.any (fun p => p.1 == k)

/-- Python dict assignment `d[k] = v`: overwrite in place if the key exists,
else append. -/
def dictSet (d : List (String × String)) (k v : String) : List (String × String) :=
  if dictHasKey d k then d.map (fun p => if p.1 == k then (k, v) else p)
  else d ++ [(k, v)]

/-- The fixed platform list, in source order. -/
def platforms : List String :=
  ["linkedin", "twitter", "facebook", "instagram", "youtube", "github"]

/-- The inner platform loop for one anchor href. -/
def socialStep (d : List (String × String)) (href : String) : List (String × String) :=
  platforms.foldl
    (fun d platform =>
      if !dictHasKey d platform && isSubstring platform.toList (pyLower href).toList then
        dictSet d (pyTitle platform) href
      else d)
    d

/-- `EnhancedWebScraper._extract_social_media`, over the document-order list
of anchor `href` values. -/
def extract_social_media (anchors : List String) : List (String × String) :=
  anchors.foldl socialStep []


/-!
`EnhancedWebScraper._extract_technologies`,
`_extract_company_name`, `_extract_description`.
-/

/-- The technology signature catalog, in insertion order. -/
def tech_indicators : List (String × List String) :=
  [ ("React", ["react.js", "react-dom", "data-reactroot"]),
    ("Angular", ["angular.js", "ng-app"]),
    ("Vue.js", ["vue.js", "data-v-app"]),
    ("jQuery", ["jquery.js", "jquery.min.js"]),
    ("Shopify", ["shopify.com", "cdn.shopify.com"]),
    ("WooCommerce", ["woocommerce"]),
    ("Magento", ["magento"]),
    ("BigCommerce", ["bigcommerce"]),
    ("WordPress", ["wp-content", "wp-json"]),
    ("Drupal", ["drupal.js", "sites/default"]),
    ("Joomla", ["joomla"]),
    ("Contentful", ["contentful"]),
    ("Sanity", ["sanity.io"]),
    ("Google Analytics", ["google-analytics.com/analytics.js", "gtag("]),
    ("HubSpot", ["js.hs-scripts.com", "_hsq.push"]),
    ("Marketo", ["munchkin.js"]),
    ("Segment", ["cdn.segment.com"]),
    ("Hotjar", ["hotjar.com", "hj("]),
    ("Google Tag Manager", ["googletagmanager.com/gtm.js"]),
    ("Node.js", ["node.js"]),
    ("PHP", [".php"]),
    ("ASP.NET", [".aspx"]),
    ("Stripe", ["js.stripe.com"]),
    ("Braintree", ["js.braintreegateway.com"]),
    ("Zendesk", ["zendesk.com"]),
    ("Intercom", ["intercom.io", "widget.intercom.io"]) ]

/-- `EnhancedWebScraper._extract_technologies`: catalog entries any of whose
signature substrings occur in the lower-cased markup, in catalog order (the
source's `list(set(...))` on the already-duplicate-free list). -/
def extract_technologies (content : String) : List String :=
  let lower := pyLower content
  pySetList ((tech_indicators.filter
    (fun p => p.2.any (fun ind => isSubstring ind.toList lower.toList))).map Prod.fst)

/-- Everything before the first occurrence of `sep` (the effect of
`re.sub(sep + '.*', '', s)` on text without a newline after the
separator). -/
def truncBefore (sep : List Char) : List Char → List Char
  | [] => []
  | c :: t => if sep.isPrefixOf (c :: t) then [] else c :: truncBefore sep t

/-- The title cleanup of `_extract_company_name`: drop a `" | ..."` suffix
and strip, then drop a `" - ..."` suffix and strip. -/
def cleanupName (s : String) : String :=
  (pyStrip (truncBefore " - ".toList (pyStrip (truncBefore " | ".toList s.toList)))).asString

/-- Everything after the first occurrence of `sep`, if any. -/
def afterFirst (sep : List Char) : List Char → Option (List Char)
  | [] => none
  | c :: t => if sep.isPrefixOf (c :: t) then some ((c :: t).drop sep.length) else afterFirst sep t

/-- Python `str.replace(pat, rep)` with a non-empty pattern: replace every
occurrence, scanning left to right.  Fuel is the input length; every step
consumes at least one input character. -/
def replaceAllAux (pat rep : List Char) : Nat → List Char → List Char
  | 0, l => l
  | _ + 1, [] => []
  | fuel + 1, c :: t =>
    if pat.isPrefixOf (c :: t) && !pat.isEmpty then
      rep ++ replaceAllAux pat rep fuel (t.drop (pat.length - 1))
    else c :: replaceAllAux pat rep fuel t

/-- Python `str.replace(pat, rep)`. -/
def replaceAll (pat rep l : List Char) : List Char :=
  replaceAllAux pat rep l.length l

/-- `urlparse(url).netloc` for the `http(s)://` URLs the pipeline builds:
the part after the first `//` and before the first `/`, `?` or `#`; empty
when the URL has no `//`. -/
def netlocOf (url : String) : List Char :=
  match afterFirst "//".toList url.toList with
  | none => []
  | some rest => truncBefore "/".toList (truncBefore "?".toList (truncBefore "#".toList rest))

/-- The hostname fallback of `_extract_company_name`:
`urlparse(url).netloc.replace('www.', '').split('.')[0].title()`. -/
def hostnameName (url : String) : String :=
  pyTitle (truncBefore ".".toList (replaceAll "www.".toList [] (netlocOf url))).asString

/-- The document-tree signals consumed by the extractors, plus the two flat
views built by `scrape_company_data` (`str(soup)` and `soup.get_text()`).
`og_site_name` / `title_text` / `meta_description` are `none` when the
corresponding tag (or its content attribute) is absent; `anchors` lists the
`href` values of `<a href=...>` elements in document order. -/
structure Document where
  og_site_name : Option String
  title_text : Option String
  meta_description : Option String
  anchors : List String
  html : String
  text : String

/-- `EnhancedWebScraper._extract_company_name`: first selector
(`og:site_name`, then `title`) whose cleaned text is non-empty, else the
hostname fallback. -/
def extract_company_name (doc : Document) (url : String) : String :=
  match ([doc.og_site_name, doc.title_text].filterMap id |>.map cleanupName).find?
      (fun s => !(s == "")) with
  | some name => name
  | none => hostnameName url

/-- `EnhancedWebScraper._extract_description`: the description meta tag's
content, trimmed, when present and non-empty (Python truthiness); the fixed
sentinel otherwise. -/
def extract_description (doc : Document) : String :=
  match doc.meta_description with
  | some c => if c == "" then "No meta description found." else (pyStrip c.toList).asString
  | none => "No meta description found."


/-!
`EnhancedWebScraper.scrape_company_data` and the company-data dict it
returns.  The dict starts as `{'website': url}`; on a successful fetch all
nine extraction keys are added in one `update`; on `requests.RequestException`
only the `error` key is added.  Absent keys are `none`.
-/

/-- The company-data dict. -/
structure CompanyProfile where
  website : String
  name : Option String
  description : Option String
  industry : Option String
  contact_emails : Option (List String)
  phone_numbers : Option (List String)
  social_media : Option (List (String × String))
  technologies : Option (List String)
  team_size : Option String
  funding_stage : Option String
  error : Option String

/-- Outcome of the single network GET (the fetch plus parse either yields a
document or raises `requests.RequestException` with a message). -/
inductive FetchOutcome where
  | success (doc : Document)
  | failure (msg : String)

/-- URL normalization at the top of `scrape_company_data`: prefix `https://`
unless the string already starts with a scheme. -/
def normalizeUrl (url : String) : String :=
  if "http://".toList.isPrefixOf url.toList || "https://".toList.isPrefixOf url.toList then url
  else "https://" ++ url

/-- `EnhancedWebScraper.scrape_company_data`.  On success, the text-based
extractors receive `soup.get_text().lower()` and the string-based ones
`str(soup)`, as in the source. -/
def scrape_company_data (url : String) (fetch : FetchOutcome) : CompanyProfile :=
  let url := normalizeUrl url
  match fetch with
  | .failure msg =>
    { website := url, name := none, description := none, industry := none,
      contact_emails := none, phone_numbers := none, social_media := none,
      technologies := none, team_size := none, funding_stage := none,
      error := some ("Failed to scrape " ++ url ++ ". Reason: " ++ msg) }
  | .success doc =>
    let html := doc.html
    let page_text := pyLower doc.text
    { website := url,
      name := some (extract_company_name doc url),
      description := some (extract_description doc),
      industry := some (extract_industry page_text),
      contact_emails := some (extract_emails html),
      phone_numbers := some (extract_phones html),
      social_media := some (extract_social_media doc.anchors),
      technologies := some (extract_technologies html),
      team_size := some (estimate_team_size page_text),
      funding_stage := some (estimate_funding_stage page_text),
      error := none }

/-!
`LeadIntelligenceEngine.analyze_company_profile`.  The backend call is
external: its outcome — after the source's fence stripping and
`json.loads` — is an input.  `parsed` carries the fields of the resulting
JSON object that the source reads or writes; `lead_score` is `some n`
exactly when the field is present and `int(...)` converts it (a present but
non-convertible value raises inside the `try` and is the `raised` case, as
is any transport or parse failure).
-/

/-- A JSON-object analysis dict, before or after repair.  Absent keys are
`none`. -/
structure AnalysisDict where
  lead_score : Option Int
  score_breakdown : Option (List (String × String))
  rationale : Option String
  priority : Option String
  risk_level : Option String
  recommended_approach : Option String
  error : Option String

/-- Outcome of `generate_content` + fence stripping + `json.loads` +
`int(...)`. -/
inductive GenOutcome where
  | raised (msg : String)
  | parsed (a : AnalysisDict)

/-- `LeadIntelligenceEngine.analyze_company_profile`.  `model` is `none`
when `__init__` failed to configure the backend. -/
def analyze_company_profile (model : Option Unit) (o : GenOutcome) : AnalysisDict :=
  match model with
  | none =>
    { lead_score := some 0, score_breakdown := some [],
      rationale := some "AI model not initialized.", priority := some "Low",
      risk_level := some "High", recommended_approach := some "Manual review required.",
      error := none }
  | some _ =>
    match o with
    | .raised msg =>
      { lead_score := none, score_breakdown := none, rationale := none,
        priority := none, risk_level := none, recommended_approach := none,
        error := some ("Error during AI content generation: " ++ msg) }
    | .parsed a =>
      let score : Int := a.lead_score.getD 50
      { a with
        lead_score := some (max 0 (min 100 score)),
        priority := some (if score > 75 then "High" else if score > 50 then "Medium" else "Low"),
        risk_level := some (if score > 70 then "Low" else if score > 45 then "Medium" else "High"),
        rationale := some (a.rationale.getD "No detailed rationale provided by AI."),
        recommended_approach := some (a.recommended_approach.getD "Generic outreach recommended.") }

/-- The analysis step at the app call site: scoring runs only when the
scraped data carries no `error` key. -/
def pipeline_analyze (p : CompanyProfile) (model : Option Unit) (o : GenOutcome) :
    Option AnalysisDict :=
  if p.error.isSome then none else some (analyze_company_profile model o)

/-- The insight-invocation condition at the app call site:
`scraped_data.get('phone_numbers', [])` is truthy (non-empty) and
`scraped_data.get('industry', 'Unknown')` differs from `'Unknown'`. -/
def insights_invoked (p : CompanyProfile) : Bool :=
  !(p.phone_numbers.getD []).isEmpty && !(p.industry.getD "Unknown" == "Unknown")

/-!
Concrete sample inputs used by witnesses and evaluations.
-/

/-- A parsed backend response carrying a given `lead_score` together with
backend-chosen `priority` and `risk_level` labels (which the orchestrator
must discard). -/
def backendDict (s : Option Int) : AnalysisDict :=
  { lead_score := s, score_breakdown := some [("Business Maturity", "18/20 - solid")],
    rationale := some "backend rationale", priority := some "Low",
    risk_level := some "Medium", recommended_approach := some "call them",
    error := none }

/-- A parsed backend response with no `lead_score` field. -/
def noScoreDict : AnalysisDict :=
  { lead_score := none, score_breakdown := none, rationale := none,
    priority := none, risk_level := none, recommended_approach := none,
    error := none }

/-- A successfully scraped profile with a contact email, no phone numbers,
and a resolved industry. -/
def emailOnlyProfile : CompanyProfile :=
  { website := "https://acme.io", name := some "Acme", description := some "desc",
    industry := some "SaaS", contact_emails := some ["sales@acme.io"],
    phone_numbers := some [], social_media := some [], technologies := some [],
    team_size := some "45", funding_stage := some "Series A", error := none }

/-- The scenario text of the specification. -/
def scenarioText : String :=
  "We are a Series A SaaS startup, team of 45, contact@acme.io, +1 415-555-0100"

/-- A fetched document whose flat views are the scenario text. -/
def scenarioDoc : Document :=
  { og_site_name := none, title_text := none, meta_description := none,
    anchors := [], html := scenarioText, text := scenarioText }

/-- A fetched document with two anchors to the same social platform. -/
def twoLinkedinDoc : Document :=
  { og_site_name := none, title_text := none, meta_description := none,
    anchors := ["https://linkedin.com/company/acme", "https://linkedin.com/company/other"],
    html := "", text := "" }

/-!
Helper lemmas: membership in matcher results, digit counting, band
thresholds.
-/

theorem head?_mem {α : Type} {l : List α} {a : α} (h : l.head? = some a) : a ∈ l := by
  cases l with
  | nil => simp at h
  | cons x t => simp at h; simp [h]

theorem mem_cchar {p : Char → Bool} {l : List Char} {pr : List Char × List Char}
    (h : pr ∈ cchar p l) : ∃ c, p c = true ∧ pr.1 = [c] := by
  cases l with
  | nil => simp [cchar] at h
  | cons c t =>
    simp only [cchar] at h
    by_cases hp : p c = true
    · rw [if_pos hp] at h
      simp at h
      exact ⟨c, hp, by simp [h]⟩
    · rw [if_neg hp] at h
      simp at h

theorem mem_ceps {l : List Char} {pr : List Char × List Char}
    (h : pr ∈ ceps l) : pr = ([], l) := by
  simp [ceps] at h
  simp [h]

theorem mem_calt {a b : CM} {l : List Char} {pr : List Char × List Char}
    (h : pr ∈ calt a b l) : pr ∈ a l ∨ pr ∈ b l := by
  simpa [calt] using h

theorem mem_copt {a : CM} {l : List Char} {pr : List Char × List Char}
    (h : pr ∈ copt a l) : pr ∈ a l ∨ pr = ([], l) := by
  rcases mem_calt h with h' | h'
  · exact Or.inl h'
  · exact Or.inr (mem_ceps h')

theorem mem_cseq {a b : CM} {l : List Char} {pr : List Char × List Char}
    (h : pr ∈ cseq a b l) :
    ∃ p1 ∈ a l, ∃ p2 ∈ b p1.2, pr = (p1.1 ++ p2.1, p2.2) := by
  simp only [cseq, List.mem_flatMap, List.mem_map] at h
  obtain ⟨p1, hp1, p2, hp2, hpr⟩ := h
  exact ⟨p1, hp1, p2, hp2, hpr.symm⟩

/-- Digits in a concatenation. -/
theorem digitCountL_append (a b : List Char) :
    digitCountL (a ++ b) = digitCountL a + digitCountL b := by
  simp [digitCountL, List.filter_append]

/-- A separator character is not a digit. -/
theorem sepCharB_not_digit {c : Char} (h : sepCharB c = true) : c.isDigit = false := by
  simp only [sepCharB, isPySpace, Bool.or_eq_true, decide_eq_true_eq] at h
  rcases h with (h | h) | (((((h | h) | h) | h) | h) | h) <;> subst h <;> decide

/-- Members of `cexact (cchar p) n` consume exactly `n` class characters. -/
theorem mem_cexact_cchar {p : Char → Bool} {n : Nat} {l : List Char}
    {pr : List Char × List Char} (h : pr ∈ cexact (cchar p) n l) :
    pr.1.length = n ∧ ∀ c ∈ pr.1, p c = true := by
  induction n generalizing l pr with
  | zero =>
    have := mem_ceps h
    simp [this]
  | succ m ih =>
    obtain ⟨p1, hp1, p2, hp2, hpr⟩ := mem_cseq h
    obtain ⟨c, hc, hc1⟩ := mem_cchar hp1
    obtain ⟨hlen, hall⟩ := ih hp2
    subst hpr
    constructor
    · simp [hc1, hlen]
    · intro x hx
      simp [hc1] at hx
      rcases hx with hx | hx
      · subst hx; exact hc
      · exact hall x hx

/-- The optional `\+?` contributes no digits. -/
theorem plusOpt_digits {l : List Char} {pr : List Char × List Char}
    (h : pr ∈ copt (cchar (· = '+')) l) : digitCountL pr.1 = 0 := by
  rcases mem_copt h with h' | h'
  · obtain ⟨c, hc, hc1⟩ := mem_cchar h'
    simp at hc
    subst hc
    simp [hc1, digitCountL]
  · simp [h', digitCountL]

/-- The optional trailing separator contributes no digits. -/
theorem sepOpt_digits {l : List Char} {pr : List Char × List Char}
    (h : pr ∈ copt (cchar sepCharB) l) : digitCountL pr.1 = 0 := by
  rcases mem_copt h with h' | h'
  · obtain ⟨c, hc, hc1⟩ := mem_cchar h'
    simp [hc1, digitCountL, List.filter, sepCharB_not_digit hc]
  · simp [h', digitCountL]

/-- `\d{1,3}` contributes at most three digits. -/
theorem cdigits13_digits {l : List Char} {pr : List Char × List Char}
    (h : pr ∈ cdigits13 l) : digitCountL pr.1 ≤ 3 := by
  have hbound : ∀ n, pr ∈ cexact (cchar Char.isDigit) n l → digitCountL pr.1 ≤ n := by
    intro n hn
    obtain ⟨hlen, _⟩ := mem_cexact_cchar hn
    calc digitCountL pr.1 ≤ pr.1.length := List.length_filter_le _ _
    _ = n := hlen
  rcases mem_calt h with h' | h'
  · exact hbound 3 h'
  · rcases mem_calt h' with h'' | h''
    · exact le_trans (hbound 2 h'') (by omega)
    · exact le_trans (hbound 1 h'') (by omega)

/-- Every capture the phone group can produce has at most three digits. -/
theorem phoneGroup_digits {l : List Char} {pr : List Char × List Char}
    (h : pr ∈ phoneGroup l) : digitCountL pr.1 ≤ 3 := by
  rcases mem_copt h with h' | h'
  · obtain ⟨p1, hp1, p2, hp2, hpr⟩ := mem_cseq h'
    obtain ⟨q1, hq1, q2, hq2, hq⟩ := mem_cseq hp2
    subst hpr
    have h1 := plusOpt_digits hp1
    have h2 := cdigits13_digits hq1
    have h3 := sepOpt_digits hq2
    simp only [hq, digitCountL_append]
    omega
  · simp [h', digitCountL]

/-- The capture of any phone match has at most three digits. -/
theorem phoneMatchAt_digits {l cap rest : List Char}
    (h : phoneMatchAt l = some (cap, rest)) : digitCountL cap ≤ 3 := by
  have hmem := head?_mem h
  simp only [List.mem_flatMap, List.mem_map] at hmem
  obtain ⟨p1, hp1, p2, _, hpr⟩ := hmem
  have : cap = p1.1 := by
    have := congrArg Prod.fst hpr
    simpa using this.symm
  subst this
  exact phoneGroup_digits hp1

/-- Every capture collected by the phone findall scan has at most three
digits. -/
theorem phoneFindAux_digits (fuel : Nat) (l : List Char) :
    ∀ m ∈ phoneFindAux fuel l, digitCountL m ≤ 3 := by
  induction fuel generalizing l with
  | zero => intro m hm; simp [phoneFindAux] at hm
  | succ f ih =>
    intro m hm
    cases l with
    | nil => simp [phoneFindAux] at hm
    | cons c t =>
      simp only [phoneFindAux] at hm
      cases hmatch : phoneMatchAt (c :: t) with
      | none =>
        rw [hmatch] at hm
        exact ih t m hm
      | some pr =>
        obtain ⟨cap, rest⟩ := pr
        rw [hmatch] at hm
        simp at hm
        rcases hm with hm | hm
        · subst hm; exact phoneMatchAt_digits hmatch
        · exact ih rest m hm

/-- The taxonomy loop returns the label of the first entry with a keyword
match, i.e. refines the `find?`-based formulation. -/
theorem findLabel_eq_firstMatchingLabel (tax : List (String × List String)) (content : String) :
    findLabel tax content = firstMatchingLabel tax content := by
  induction tax with
  | nil => rfl
  | cons hd tl ih =>
    obtain ⟨label, kws⟩ := hd
    by_cases h : kws.any (fun kw => wbSearch kw content) = true
    · simp [findLabel, firstMatchingLabel, List.find?, h]
    · simp only [Bool.not_eq_true] at h
      simp [findLabel, firstMatchingLabel, List.find?, h] at ih ⊢
      exact ih

/-!
Claim theorems.
-/

/-- C7: each classifier returns the label of the first taxonomy entry, in
the fixed declared order, with any whole-word keyword match in the text, and
"Unknown" when none matches; matching is word-boundary-based, so "saas"
inside a longer word is not a match while the whole word is.  Both
classifiers are pure functions of the text, hence idempotent and stable
across repeated runs. -/
theorem c7_classifier_first_match_in_taxonomy_order :
    (∀ content, extract_industry content = firstMatchingLabel industry_keywords content)
    ∧ (∀ content,
        estimate_funding_stage content = firstMatchingLabel funding_stages (pyLower content))
    ∧ extract_industry "great saasy bonsai tools" = "Unknown"
    ∧ extract_industry "great saas tools" = "SaaS" :=
  ⟨fun content => findLabel_eq_firstMatchingLabel industry_keywords content,
   fun content => findLabel_eq_firstMatchingLabel funding_stages (pyLower content),
   by decide, by decide⟩

/-- C8: when the backend cannot be configured at initialization, the
orchestrator returns — without taking any error path — the complete degraded
result: score 0, empty breakdown, a rationale stating the model is not
initialized, priority Low, risk High, manual-review approach. -/
theorem c8_degraded_result_when_model_unavailable (o : GenOutcome) :
    analyze_company_profile none o =
      { lead_score := some 0, score_breakdown := some [],
        rationale := some "AI model not initialized.", priority := some "Low",
        risk_level := some "High",
        recommended_approach := some "Manual review required.", error := none } := rfl

/-- C10: a parsed JSON object with no lead_score field takes the normal
repair path (no error is added), substituting the default 50, which lands in
priority Low and risk Medium. -/
theorem c10_missing_lead_score_defaults (a : AnalysisDict) (h : a.lead_score = none) :
    (analyze_company_profile (some ()) (.parsed a)).error = a.error
    ∧ (analyze_company_profile (some ()) (.parsed a)).lead_score = some 50
    ∧ (analyze_company_profile (some ()) (.parsed a)).priority = some "Low"
    ∧ (analyze_company_profile (some ()) (.parsed a)).risk_level = some "Medium" := by
  refine ⟨?_, ?_, ?_, ?_⟩ <;> norm_num [analyze_company_profile, h]

/-- Witness for C10 at a concrete score-free backend response. -/
theorem c10_missing_lead_score_defaults_witness :
    noScoreDict.lead_score = none
    ∧ (analyze_company_profile (some ()) (.parsed noScoreDict)).lead_score = some 50
    ∧ (analyze_company_profile (some ()) (.parsed noScoreDict)).priority = some "Low"
    ∧ (analyze_company_profile (some ()) (.parsed noScoreDict)).risk_level = some "Medium" :=
  ⟨rfl, (c10_missing_lead_score_defaults noScoreDict rfl).2.1,
    (c10_missing_lead_score_defaults noScoreDict rfl).2.2.1,
    (c10_missing_lead_score_defaults noScoreDict rfl).2.2.2⟩

/-- C1: for every parsed backend object whose lead_score converts to an
integer, priority and risk_level of the repaired result are the fixed
band functions of the clamped score — whatever priority or risk labels the
backend supplied (the quantification over `a` covers arbitrary supplied
labels); in particular scores 80, 60, 30 give (High, Low), (Medium, Medium),
(Low, High) even though `backendDict` supplies contrary labels. -/
theorem c1_bands_recomputed_from_clamped_score (a : AnalysisDict) (n : Int)
    (h : a.lead_score = some n) :
    ((analyze_company_profile (some ()) (.parsed a)).priority
        = some (if 75 < max 0 (min 100 n) then "High"
            else if 50 < max 0 (min 100 n) then "Medium" else "Low")
      ∧ (analyze_company_profile (some ()) (.parsed a)).risk_level
        = some (if 70 < max 0 (min 100 n) then "Low"
            else if 45 < max 0 (min 100 n) then "Medium" else "High"))
    ∧ ((analyze_company_profile (some ()) (.parsed (backendDict (some 80)))).priority = some "High"
      ∧ (analyze_company_profile (some ()) (.parsed (backendDict (some 80)))).risk_level = some "Low"
      ∧ (analyze_company_profile (some ()) (.parsed (backendDict (some 60)))).priority = some "Medium"
      ∧ (analyze_company_profile (some ()) (.parsed (backendDict (some 60)))).risk_level = some "Medium"
      ∧ (analyze_company_profile (some ()) (.parsed (backendDict (some 30)))).priority = some "Low"
      ∧ (analyze_company_profile (some ()) (.parsed (backendDict (some 30)))).risk_level = some "High") := by
  refine ⟨⟨?_, ?_⟩, by decide⟩
  · simp only [analyze_company_profile, h, Option.getD_some]
    congr 1
    by_cases h1 : (75:Int) < n
    · rw [if_pos h1, if_pos (by omega)]
    · by_cases h2 : (50:Int) < n
      · rw [if_neg h1, if_pos h2, if_neg (by omega), if_pos (by omega)]
      · rw [if_neg h1, if_neg h2, if_neg (by omega), if_neg (by omega)]
  · simp only [analyze_company_profile, h, Option.getD_some]
    congr 1
    by_cases h1 : (70:Int) < n
    · rw [if_pos h1, if_pos (by omega)]
    · by_cases h2 : (45:Int) < n
      · rw [if_neg h1, if_pos h2, if_neg (by omega), if_pos (by omega)]
      · rw [if_neg h1, if_neg h2, if_neg (by omega), if_neg (by omega)]

/-- Witness for C1 at the concrete response claiming score 80 with contrary
backend labels. -/
theorem c1_bands_recomputed_from_clamped_score_witness :
    (backendDict (some 80)).lead_score = some 80
    ∧ (backendDict (some 80)).priority = some "Low"
    ∧ (analyze_company_profile (some ()) (.parsed (backendDict (some 80)))).priority = some "High"
    ∧ (analyze_company_profile (some ()) (.parsed (backendDict (some 80)))).risk_level = some "Low" :=
  ⟨rfl, rfl,
    (c1_bands_recomputed_from_clamped_score (backendDict (some 80)) 80 rfl).2.1,
    (c1_bands_recomputed_from_clamped_score (backendDict (some 80)) 80 rfl).2.2.1⟩

/-- C2: for every parsed backend object whose lead_score converts to the
integer n, the repaired lead_score is exactly the clamp of n to [0,100]
(so it always lies in the interval); a claimed -50 becomes 0 and a claimed
999 becomes 100. -/
theorem c2_lead_score_clamped_into_range (a : AnalysisDict) (n : Int)
    (h : a.lead_score = some n) :
    (analyze_company_profile (some ()) (.parsed a)).lead_score = some (max 0 (min 100 n))
    ∧ (0 : Int) ≤ max 0 (min 100 n) ∧ max 0 (min 100 n) ≤ 100
    ∧ (analyze_company_profile (some ()) (.parsed (backendDict (some (-50))))).lead_score = some 0
    ∧ (analyze_company_profile (some ()) (.parsed (backendDict (some 999)))).lead_score = some 100 := by
  refine ⟨?_, by omega, by omega, by decide, by decide⟩
  simp [analyze_company_profile, h]

/-- Witness for C2 at the concrete responses claiming scores 999 and -50. -/
theorem c2_lead_score_clamped_into_range_witness :
    (backendDict (some 999)).lead_score = some 999
    ∧ (analyze_company_profile (some ()) (.parsed (backendDict (some 999)))).lead_score = some 100
    ∧ (analyze_company_profile (some ()) (.parsed (backendDict (some (-50))))).lead_score = some 0 :=
  ⟨rfl, (c2_lead_score_clamped_into_range (backendDict (some 999)) 999 rfl).2.2.2.2,
    (c2_lead_score_clamped_into_range (backendDict (some 999)) 999 rfl).2.2.2.1⟩

/-- C3: every analysis yields exactly one of the two profile shapes — the
fetch failed, the error key is set, every extraction key is absent and the
call site skips scoring; or the fetch succeeded, no error key is set and all
nine extraction keys are present.  The two disjuncts exclude each other on
the error field. -/
theorem c3_profile_error_xor_fully_populated (url : String) (fetch : FetchOutcome) :
    ((scrape_company_data url fetch).error.isSome = true
      ∧ (scrape_company_data url fetch).name = none
      ∧ (scrape_company_data url fetch).description = none
      ∧ (scrape_company_data url fetch).industry = none
      ∧ (scrape_company_data url fetch).contact_emails = none
      ∧ (scrape_company_data url fetch).phone_numbers = none
      ∧ (scrape_company_data url fetch).social_media = none
      ∧ (scrape_company_data url fetch).technologies = none
      ∧ (scrape_company_data url fetch).team_size = none
      ∧ (scrape_company_data url fetch).funding_stage = none
      ∧ ∀ model o, pipeline_analyze (scrape_company_data url fetch) model o = none)
    ∨ ((scrape_company_data url fetch).error = none
      ∧ (scrape_company_data url fetch).name.isSome = true
      ∧ (scrape_company_data url fetch).description.isSome = true
      ∧ (scrape_company_data url fetch).industry.isSome = true
      ∧ (scrape_company_data url fetch).contact_emails.isSome = true
      ∧ (scrape_company_data url fetch).phone_numbers.isSome = true
      ∧ (scrape_company_data url fetch).social_media.isSome = true
      ∧ (scrape_company_data url fetch).technologies.isSome = true
      ∧ (scrape_company_data url fetch).team_size.isSome = true
      ∧ (scrape_company_data url fetch).funding_stage.isSome = true) := by
  cases fetch with
  | failure msg =>
    left
    refine ⟨rfl, rfl, rfl, rfl, rfl, rfl, rfl, rfl, rfl, rfl, ?_⟩
    intro model o
    simp [scrape_company_data, pipeline_analyze]
  | success doc =>
    right
    exact ⟨rfl, rfl, rfl, rfl, rfl, rfl, rfl, rfl, rfl, rfl⟩

/-- C4: evaluation of the social-link extractor at a document whose anchors
link twice to the same platform.  The membership guard compares the
lowercase platform name against the title-cased keys, so it never fires, and
the LAST matching href wins — contradicting the claimed first-match-wins
behaviour. -/
theorem c4_later_social_link_overwrites :
    extract_social_media twoLinkedinDoc.anchors
      = [("Linkedin", "https://linkedin.com/company/other")]
    ∧ (scrape_company_data "https://acme.io" (.success twoLinkedinDoc)).social_media
      = some [("Linkedin", "https://linkedin.com/company/other")] := by decide

/-- C5 counterexample: a successfully scraped profile with a contact email,
an empty phone list and a resolved industry — the claim says insights must
be generated here, but the call-site condition (which reads only
phone_numbers) is false. -/
theorem c5_email_only_profile_not_invoked :
    emailOnlyProfile.contact_emails = some ["sales@acme.io"]
    ∧ emailOnlyProfile.phone_numbers = some []
    ∧ emailOnlyProfile.industry = some "SaaS"
    ∧ emailOnlyProfile.error = none
    ∧ insights_invoked emailOnlyProfile = false := by decide

/-- C5 amended: the additional-insights generator is invoked if and only if
the profile's phone-number list is non-empty and its industry is not
"Unknown"; contact emails play no role. -/
theorem c5_insights_iff_phones_and_industry (p : CompanyProfile) :
    insights_invoked p = true ↔
      (p.phone_numbers.getD [] ≠ [] ∧ p.industry.getD "Unknown" ≠ "Unknown") := by
  simp [insights_invoked]

/-- C6: evaluation of the pipeline at the specification's scenario text.
Industry, funding stage, team size and contact emails come out as claimed,
but the phone-number list is empty, not a singleton: `re.findall` on the
phone pattern returns the one-group capture `"+1 "` (1 digit), which the
8-to-15-digit filter discards. -/
theorem c6_scenario_extraction :
    (scrape_company_data "https://acme.io" (.success scenarioDoc)).industry = some "SaaS"
    ∧ (scrape_company_data "https://acme.io" (.success scenarioDoc)).funding_stage
        = some "Series A"
    ∧ (scrape_company_data "https://acme.io" (.success scenarioDoc)).team_size = some "45"
    ∧ (scrape_company_data "https://acme.io" (.success scenarioDoc)).contact_emails
        = some ["contact@acme.io"]
    ∧ (scrape_company_data "https://acme.io" (.success scenarioDoc)).phone_numbers
        = some [] := by decide

/-- C9: the phone extractor returns the empty list on every input — each
`re.findall` result is the optional country-code group's capture, which has
at most three digits and never passes the 8-to-15-digit filter — and hence
every successfully scraped profile carries an empty phone_numbers list. -/
theorem c9_extract_phones_always_empty :
    (∀ content, extract_phones content = [])
    ∧ ∀ url doc, (scrape_company_data url (.success doc)).phone_numbers = some [] := by
  have hmain : ∀ content, extract_phones content = [] := by
    intro content
    have hfil : (phoneFindAux content.toList.length content.toList).filter
        (fun m => decide (8 ≤ digitCountL m) && decide (digitCountL m ≤ 15)) = [] := by
      rw [List.filter_eq_nil_iff]
      intro m hm
      have hd := phoneFindAux_digits content.toList.length content.toList m hm
      simp only [Bool.and_eq_true, decide_eq_true_eq, not_and]
      intro h8
      omega
    show (pySetList (((phoneFindAux content.toList.length content.toList).filter
        (fun m => decide (8 ≤ digitCountL m) && decide (digitCountL m ≤ 15))).map
        (fun m => (pyStrip m).asString))).take 3 = []
    rw [hfil]
    rfl
  exact ⟨hmain, fun url doc => by simp [scrape_company_data, hmain]⟩

end LeadGen
